import Mathlib

set_option maxRecDepth 20000

/-!
Verification of the build-graph generator `scripts/generate-ninja.py`.

The script scans a filesystem snapshot (firmware sources, library sources,
hardware-description sources, tool probes), classifies each firmware unit
into bare-metal / newlib / library-dependent, and emits a `build.ninja`
file.  We embed the script as pure Lean functions over an `Env` record that
holds exactly the data the script reads from its environment: the results
of the `glob` calls (in the order the OS returned them, with the first
2000 characters of each firmware source, as read by `categorize_firmware`),
the tool-probe results, and the newlib-availability probe.
-/

namespace GenNinja

/-- Does the character list `pat` occur as a leading block of `s`?
Helper for the substring test used by Python's `in` operator. -/
def listPre (pat s : List Char) : Bool :=
  match pat, s with
  | [], _ => true
  | _, [] => false
  | a :: as, b :: bs => if a = b then listPre as bs else false

/-- Does `pat` occur as a contiguous block anywhere in the list?
Helper for the substring test used by Python's `in` operator. -/
def listSub (pat : List Char) : List Char → Bool
  | [] => listPre pat []
  | c :: cs => listPre pat (c :: cs) || listSub pat cs

/-- Python `pat in hay` on strings: substring containment. -/
def strContains (hay pat : String) : Bool := listSub pat.data hay.data

/-- Python `s.replace(".c", "")`: remove every (left-to-right,
non-overlapping) occurrence of `.c`. -/
def stripDotC : List Char → List Char
  | [] => []
  | [c] => [c]
  | a :: b :: rest =>
    if a == '.' && b == 'c' then stripDotC rest
    else a :: stripDotC (b :: rest)

/-- Python `s.replace(".c", ".o")`: rewrite every (left-to-right,
non-overlapping) occurrence of `.c` to `.o`. -/
def dotCToO : List Char → List Char
  | [] => []
  | [c] => [c]
  | a :: b :: rest =>
    if a == '.' && b == 'c' then '.' :: 'o' :: dotCToO rest
    else a :: dotCToO (b :: rest)

/-- Python `os.path.basename`: the component after the last `/`. -/
def baseName (s : String) : String :=
  ⟨(s.data.reverse.takeWhile (fun c => c != '/')).reverse⟩

/-- `os.path.basename(src).replace('.c', '')` — the firmware target name
derived from a source path (generate-ninja.py line 95). -/
def targetName (s : String) : String := ⟨stripDotC (baseName s).data⟩

/-- Python `' '.join(xs)`. -/
def joinSp (xs : List String) : String := String.intercalate " " xs

/-- One entry of the `libraries` table of `categorize_firmware`:
library name, glob results for its sources, its include path. -/
structure LibEntry where
  name : String
  sources : List String
  inc : String
deriving DecidableEq

/-- The data `generate-ninja.py` reads from its environment: glob results
(in OS enumeration order; for firmware, each path is paired with the first
2000 characters of the file), the probed tool paths, and the probes'
results. -/
structure Env where
  firmware : List (String × String)
  incursesSrcs : List String
  microrlSrcs : List String
  simpleUploadSrcs : List String
  hdl : List String
  nproc : String
  toolchain : String
  yosys : String
  nextpnr : String
  icepack : String
  icetime : String
  newlibAvailable : Bool
deriving DecidableEq

/-- The library-definition table of `categorize_firmware` (lines 88-92),
in its fixed declaration order. -/
def libraries (e : Env) : List LibEntry :=
  [⟨"incurses", e.incursesSrcs, "lib/incurses"⟩,
   ⟨"microrl", e.microrlSrcs, "lib/microrl"⟩,
   ⟨"simple_upload", e.simpleUploadSrcs, "lib/simple_upload"⟩]

/-- The library-marker test of line 108:
`f'lib/{lib_name}/' in content or f'{lib_name}.h' in content`. -/
def mentionsLib (content : String) (l : LibEntry) : Bool :=
  strContains content ("lib/" ++ l.name ++ "/") ||
  strContains content (l.name ++ ".h")

/-- The `uses_libs` list of lines 106-109: the library-table entries whose
marker occurs in the content, in table order. -/
def usesLibs (e : Env) (content : String) : List LibEntry :=
  (libraries e).filter (fun l => mentionsLib content l)

/-- The standard-runtime markers of line 115. -/
def newlibMarkers : List String :=
  ["<stdio.h>", "<stdlib.h>", "<string.h>", "<math.h>", "_write", "_read", "_sbrk"]

/-- The runtime-marker test of line 115. -/
def usesNewlib (content : String) : Bool :=
  newlibMarkers.any (fun m => strContains content m)

/-- The three firmware build classes. -/
inductive BuildClass where
  | bareMetal
  | minimalRuntime
  | libraryDependent
deriving DecidableEq

/-- The classification decision of lines 105-120 for a single unit's
leading content: library check first, then runtime markers, else bare. -/
def classify (e : Env) (content : String) : BuildClass :=
  if usesLibs e content ≠ [] then .libraryDependent
  else if usesNewlib content then .minimalRuntime
  else .bareMetal

/-- The skip list of line 85: library-support modules that are not
standalone firmware. -/
def skipList : List String := ["timer_ms", "timer_lib"]

/-- The result of `categorize_firmware`: the three class lists (in
discovery order) and the `complex_deps` dict, modelled as an
association list with Python-dict key semantics. -/
structure Categorized where
  bare : List String
  newlib : List String
  complexFw : List String
  complexDeps : List (String × List LibEntry)
deriving DecidableEq

/-- Lookup in the `complex_deps` dict. -/
def dictGet (k : String) : List (String × List LibEntry) → Option (List LibEntry)
  | [] => none
  | (k', v) :: rest => if k' = k then some v else dictGet k rest

/-- Install key `k` at the earliest-occurrence position with Python dict
semantics: we build the dict back-to-front (the recursion below conses the
earliest file onto the result for the later files), so if `k` was already
inserted by a later file the later file's value wins while `k`'s position
moves to this (earlier) occurrence. -/
def dictPromote (k : String) (v : List LibEntry)
    (d : List (String × List LibEntry)) : List (String × List LibEntry) :=
  match dictGet k d with
  | some v0 => (k, v0) :: d.filter (fun kv => kv.1 ≠ k)
  | none => (k, v) :: d

/-- The loop body of `categorize_firmware` (lines 94-120) over the
firmware glob results, head = earliest file. -/
def categorizeList (e : Env) : List (String × String) → Categorized
  | [] => ⟨[], [], [], []⟩
  | (p, c) :: rest =>
    let r := categorizeList e rest
    let b := targetName p
    if skipList.contains b then r
    else if usesLibs e c ≠ [] then
      ⟨r.bare, r.newlib, b :: r.complexFw, dictPromote b (usesLibs e c) r.complexDeps⟩
    else if usesNewlib c then ⟨r.bare, b :: r.newlib, r.complexFw, r.complexDeps⟩
    else ⟨b :: r.bare, r.newlib, r.complexFw, r.complexDeps⟩

/-- `categorize_firmware` (lines 79-122). -/
def categorize_firmware (e : Env) : Categorized := categorizeList e e.firmware

/-- The newlib-availability gate of lines 133-141: without newlib the
newlib and complex target lists (and the deps dict) are emptied. -/
def genCat (e : Env) : Categorized :=
  let c := categorize_firmware e
  if e.newlibAvailable then c else ⟨c.bare, [], [], []⟩

/-- One emitted `build` statement of the ninja file: outputs, rule name,
explicit inputs, implicit (order-only, after `|`) inputs, and the indented
`name = value` bindings that follow the line. -/
structure BuildStmt where
  outputs : List String
  rule : String
  inputsE : List String
  inputsI : List String
  vars : List (String × String)
deriving DecidableEq

/-- Library-object node name (line 309/325):
`$builddir/lib_{lib_name}_{basename(lib_src).replace('.c', '.o')}`. -/
def libObjName (n : String) (src : String) : String :=
  "$builddir/lib_" ++ n ++ "_" ++ (⟨dotCToO (baseName src).data⟩ : String)

/-- Bare-metal firmware compile statement (line 272). -/
def compileBareStmt (t : String) : BuildStmt :=
  ⟨["$builddir/" ++ t ++ ".o"], "cc_bare", ["$firmdir/" ++ t ++ ".c"], [], []⟩

/-- Bare-metal firmware link statement (lines 273-274). -/
def linkBareStmt (t : String) : BuildStmt :=
  ⟨["$firmdir/" ++ t ++ ".elf"], "ld_bare",
   ["$builddir/fw_start.o", "$builddir/" ++ t ++ ".o"], [],
   [("ldscript", "$firmdir/linker.ld")]⟩

/-- Binary-extraction statement (lines 275, 290, 336). -/
def binStmt (t : String) : BuildStmt :=
  ⟨["$firmdir/" ++ t ++ ".bin"], "objcopy", ["$firmdir/" ++ t ++ ".elf"], [], []⟩

/-- Newlib firmware compile statement (line 287). -/
def compileNewlibStmt (t : String) : BuildStmt :=
  ⟨["$builddir/" ++ t ++ ".o"], "cc_newlib", ["$firmdir/" ++ t ++ ".c"], [], []⟩

/-- Newlib firmware link statement (lines 288-289). -/
def linkNewlibStmt (t : String) : BuildStmt :=
  ⟨["$firmdir/" ++ t ++ ".elf"], "ld_newlib",
   ["$builddir/fw_start.o", "$builddir/" ++ t ++ ".o"], [],
   [("ldscript", "$firmdir/linker.ld")]⟩

/-- Library-module compile statement (lines 310-311). -/
def libCompileStmt (l : LibEntry) (src : String) : BuildStmt :=
  ⟨[libObjName l.name src], "cc_newlib_with_flags", [src], [],
   [("cflags_extra", "-I" ++ l.inc)]⟩

/-- The ordered library-object list a complex firmware links against
(lines 322-326). -/
def libObjsOf (ds : List LibEntry) : List String :=
  ds.flatMap (fun l => l.sources.map (fun src => libObjName l.name src))

/-- Complex firmware compile statement (lines 329-330). -/
def complexCompileStmt (t : String) (ds : List LibEntry) : BuildStmt :=
  ⟨["$builddir/" ++ t ++ ".o"], "cc_newlib_with_flags", ["$firmdir/" ++ t ++ ".c"], [],
   [("cflags_extra", joinSp (ds.map (fun l => "-I" ++ l.inc)))]⟩

/-- Complex firmware link statement (lines 333-335). -/
def complexLinkStmt (t : String) (ds : List LibEntry) : BuildStmt :=
  ⟨["$firmdir/" ++ t ++ ".elf"], "ld_newlib",
   "$builddir/fw_start.o" :: ("$builddir/" ++ t ++ ".o") :: libObjsOf ds, [],
   [("ldscript", "$firmdir/linker.ld")]⟩

/-- Library emission for one unit's dependency list (lines 305-312):
emit each not-yet-built library's modules, accumulating the
`built_libs` set. -/
def emitLibsFor : List LibEntry → List String → List BuildStmt × List String
  | [], built => ([], built)
  | l :: ds, built =>
    if built.contains l.name then emitLibsFor ds built
    else
      let r := emitLibsFor ds (l.name :: built)
      (l.sources.map (fun src => libCompileStmt l src) ++ r.1, r.2)

/-- Library emission over all complex units (lines 303-312). -/
def emitAllLibs : List (String × List LibEntry) → List String →
    List BuildStmt × List String
  | [], built => ([], built)
  | (_, ds) :: rest, built =>
    let r1 := emitLibsFor ds built
    let r2 := emitAllLibs rest r1.2
    (r1.1 ++ r2.1, r2.2)

/-- The de-duplicated library compile statements of the generated file. -/
def libStmts (e : Env) : List BuildStmt :=
  (emitAllLibs (genCat e).complexDeps []).1

/-- The complex-firmware statements (lines 315-336): the loop runs over
`complex_targets` and looks each target up in the `complex_deps` dict. -/
def complexStmts (e : Env) : List BuildStmt :=
  (genCat e).complexFw.flatMap (fun t =>
    match dictGet t (genCat e).complexDeps with
    | some ds => [complexCompileStmt t ds, complexLinkStmt t ds, binStmt t]
    | none => [])

/-- The bootloader statements (lines 248-263). -/
def bootStmts : List BuildStmt :=
  [⟨["$builddir/bootloader.o"], "cc_bare", ["$bootdir/bootloader.c"], [], []⟩,
   ⟨["$builddir/start.o"], "as_bare", ["$bootdir/start.S"], [], []⟩,
   ⟨["$bootdir/bootloader.elf"], "ld_bare",
    ["$builddir/start.o", "$builddir/bootloader.o"], [],
    [("ldscript", "$bootdir/linker.ld")]⟩,
   ⟨["$bootdir/bootloader.bin"], "objcopy", ["$bootdir/bootloader.elf"], [], []⟩,
   ⟨["$bootdir/bootloader.hex"], "hexdump", ["$bootdir/bootloader.elf"], [], []⟩,
   ⟨["bootloader"], "phony",
    ["$bootdir/bootloader.bin", "$bootdir/bootloader.hex"], [], []⟩]

/-- The shared firmware startup-object statement (line 270). -/
def fwStartStmt : BuildStmt :=
  ⟨["$builddir/fw_start.o"], "as_bare", ["$firmdir/start.S"], [], []⟩

/-- Per-class firmware aggregate (lines 279-282, 294-297, 338-341):
phony over the class's `.bin` files, empty when the class is empty. -/
def classAgg (nm : String) (ts : List String) : BuildStmt :=
  ⟨[nm], "phony", ts.map (fun t => "$firmdir/" ++ t ++ ".bin"), [], []⟩

/-- The bare-metal firmware section statements (lines 268-282). -/
def bareStmts (e : Env) : List BuildStmt :=
  (genCat e).bare.flatMap (fun t => [compileBareStmt t, linkBareStmt t, binStmt t]) ++
  [classAgg "firmware-bare" (genCat e).bare]

/-- The newlib firmware section statements (lines 285-297). -/
def newlibStmts (e : Env) : List BuildStmt :=
  (genCat e).newlib.flatMap (fun t => [compileNewlibStmt t, linkNewlibStmt t, binStmt t]) ++
  [classAgg "firmware-newlib" (genCat e).newlib]

/-- The all-firmware aggregate (line 343). -/
def fwAllStmt : BuildStmt :=
  ⟨["firmware-all"], "phony",
   ["firmware-bare", "firmware-newlib", "firmware-complex"], [], []⟩

/-- The exclusion filter of line 348: drop hdl sources containing
`_2cycle` or `.3state`. -/
def hdlFiltered (e : Env) : List String :=
  e.hdl.filter (fun f => !(strContains f "_2cycle") && !(strContains f ".3state"))

/-- The synthesis statement (lines 352-353). -/
def synthStmt (e : Env) : BuildStmt :=
  ⟨["$builddir/ice40_picorv32.json"], "synthesis", hdlFiltered e, [],
   [("in", joinSp (hdlFiltered e))]⟩

/-- The gateware statements after synthesis (lines 355-364). -/
def gatewareStmts : List BuildStmt :=
  [⟨["$builddir/ice40_picorv32.asc"], "pnr", ["$builddir/ice40_picorv32.json"], [],
    [("pcf", "$hdldir/ice40_picorv32.pcf")]⟩,
   ⟨["$builddir/ice40_picorv32.bin"], "pack", ["$builddir/ice40_picorv32.asc"], [], []⟩,
   ⟨["$builddir/timing.rpt"], "timing", ["$builddir/ice40_picorv32.asc"], [], []⟩,
   ⟨["bitstream"], "phony", ["$builddir/ice40_picorv32.bin"], [], []⟩,
   ⟨["gateware"], "phony", ["bitstream", "$builddir/timing.rpt"], [], []⟩]

/-- Host-tool and artifact statements (lines 369-401). -/
def toolArtifactStmts : List BuildStmt :=
  [⟨["$toolsdir/fw_upload"], "host_cc", ["$toolsdir/fw_upload.c"], [], []⟩,
   ⟨["uploader"], "phony", ["$toolsdir/fw_upload"], [], []⟩,
   ⟨["$artifactsdir/host/fw_upload"], "copy", ["$toolsdir/fw_upload"],
    ["$artifactsdir/host"], []⟩,
   ⟨["$artifactsdir/gateware/ice40_picorv32.bin"], "copy",
    ["$builddir/ice40_picorv32.bin"], ["$artifactsdir/gateware"], []⟩,
   ⟨["$artifactsdir/firmware"], "phony", [], [], []⟩,
   ⟨["collect-firmware"], "collect_firmware", [], ["firmware-all"], []⟩,
   ⟨["$artifactsdir/host"], "mkdir", [], [], []⟩,
   ⟨["$artifactsdir/gateware"], "mkdir", [], [], []⟩,
   ⟨["artifacts"], "phony",
    ["$artifactsdir/host/fw_upload", "$artifactsdir/gateware/ice40_picorv32.bin",
     "collect-firmware"], [], []⟩,
   ⟨["all"], "phony",
    ["bootloader", "firmware-all", "gateware", "uploader", "artifacts"], [], []⟩]

/-- Every `build` statement `generate_ninja` writes, in emission order. -/
def ninjaStmts (e : Env) : List BuildStmt :=
  bootStmts ++ [fwStartStmt] ++ bareStmts e ++ newlibStmts e ++
  libStmts e ++ complexStmts e ++
  [classAgg "firmware-complex" (genCat e).complexFw, fwAllStmt] ++
  [synthStmt e] ++ gatewareStmts ++ toolArtifactStmts

/-- The 79-equals separator line of the emitted header comments. -/
def barLine : String :=
  "#=======================" ++
  "=======================" ++
  "=======================" ++
  "=========="

/-- The header block written at line 144. -/
def headerText : String :=
  barLine ++
  "\n# Olimex iCE40HX8K PicoRV32 RISC-V System\n# Ninja Build File (Auto-generated)\n#\n# Copyright (c) October 2025 Michael Wolak\n# Email: mikewolak@gmail.com, mike@epromfoundry.com\n#\n# NOT FOR COMMERCIAL USE\n# Educational and research purposes only\n" ++
  barLine ++ "\n\n"

/-- The configuration-variable block written at line 158. -/
def configText (e : Env) : String :=
  "# Build configuration\nnproc = " ++ e.nproc ++ "\nprefix = " ++ e.toolchain ++
  "\nyosys = " ++ e.yosys ++ "\nnextpnr = " ++ e.nextpnr ++ "\nicepack = " ++ e.icepack ++
  "\nicetime = " ++ e.icetime ++
  "\n\n# Directories\nbuilddir = build\nbootdir = bootloader\nfirmdir = firmware\nhdldir = hdl\ntoolsdir = tools/uploader\nartifactsdir = artifacts\n\n# Compiler flags (bare metal)\nbare_cflags = -march=rv32im -mabi=ilp32 -O2 -Wall -Wextra -ffreestanding -nostdlib\nbare_ldflags = -march=rv32im -mabi=ilp32 -nostdlib -Wl,--gc-sections\n\n# Compiler flags (with newlib)\nnewlib_cflags = -march=rv32im -mabi=ilp32 -O2 -Wall -Wextra\nnewlib_ldflags = -march=rv32im -mabi=ilp32 -Wl,--gc-sections -static\n\n# Newlib library path\nnewlib_lib = build/toolchain/riscv64-unknown-elf/lib/rv32im/ilp32\n\n"

/-- The rule-template block written at line 188. -/
def rulesText : String :=
  "# Build rules\nrule cc_bare\n  command = $\x7bprefix\x7dgcc $bare_cflags -c $in -o $out\n  description = Compiling (bare) $in\n\nrule cc_newlib\n  command = $\x7bprefix\x7dgcc $newlib_cflags -c $in -o $out\n  description = Compiling (newlib) $in\n\nrule cc_newlib_with_flags\n  command = $\x7bprefix\x7dgcc $newlib_cflags $cflags_extra -c $in -o $out\n  description = Compiling (newlib+libs) $in\n\nrule ld_bare\n  command = $\x7bprefix\x7dgcc $bare_ldflags -T $ldscript $in -o $out\n  description = Linking (bare) $out\n\nrule ld_newlib\n  command = $\x7bprefix\x7dgcc $newlib_ldflags -T $ldscript $in -L$newlib_lib -lm -lc -lgcc -o $out\n  description = Linking (newlib) $out\n\nrule objcopy\n  command = $\x7bprefix\x7dobjcopy -O binary $in $out\n  description = Creating binary $out\n\nrule hexdump\n  command = $\x7bprefix\x7dobjdump -D $in > $out\n  description = Creating hexdump $out\n\nrule synthesis\n  command = $yosys -q -p \"read_verilog $in; synth_ice40 -abc9 -device hx8k -top ice40_picorv32_top -json $out\"\n  description = Synthesizing $in\n\nrule pnr\n  command = $nextpnr --hx8k --package ct256 --json $in --pcf $pcf --asc $out --placer heap --seed 1\n  description = Place and route $in\n\nrule pack\n  command = $icepack $in $out\n  description = Packing bitstream $out\n\nrule timing\n  command = $icetime -d hx8k -t -m -r $out $in\n  description = Timing analysis $in\n\nrule host_cc\n  command = gcc -O2 -Wall -Wextra $in -o $out\n  description = Compiling host tool $out\n\nrule copy\n  command = cp $in $out\n  description = Copying $in\n\nrule mkdir\n  command = mkdir -p $out\n  description = Creating directory $out\n\n"

/-- The bootloader block written at line 248. -/
def bootText : String :=
  "# Bootloader\nrule as_bare\n  command = $\x7bprefix\x7dgcc $bare_cflags -c $in -o $out\n  description = Assembling $in\n\nbuild $builddir/bootloader.o: cc_bare $bootdir/bootloader.c\nbuild $builddir/start.o: as_bare $bootdir/start.S\n\nbuild $bootdir/bootloader.elf: ld_bare $builddir/start.o $builddir/bootloader.o\n  ldscript = $bootdir/linker.ld\n\nbuild $bootdir/bootloader.bin: objcopy $bootdir/bootloader.elf\n\nbuild $bootdir/bootloader.hex: hexdump $bootdir/bootloader.elf\n\nbuild bootloader: phony $bootdir/bootloader.bin $bootdir/bootloader.hex\n\n"

/-- One bare-metal target's block (lines 272-277). -/
def bareChunk (t : String) : String :=
  "build $builddir/" ++ t ++ ".o: cc_bare $firmdir/" ++ t ++
  ".c\nbuild $firmdir/" ++ t ++ ".elf: ld_bare $builddir/fw_start.o $builddir/" ++ t ++
  ".o\n  ldscript = $firmdir/linker.ld\nbuild $firmdir/" ++ t ++
  ".bin: objcopy $firmdir/" ++ t ++ ".elf\n\n"

/-- One newlib target's block (lines 287-292). -/
def newlibChunk (t : String) : String :=
  "build $builddir/" ++ t ++ ".o: cc_newlib $firmdir/" ++ t ++
  ".c\nbuild $firmdir/" ++ t ++ ".elf: ld_newlib $builddir/fw_start.o $builddir/" ++ t ++
  ".o\n  ldscript = $firmdir/linker.ld\nbuild $firmdir/" ++ t ++
  ".bin: objcopy $firmdir/" ++ t ++ ".elf\n\n"

/-- A per-class firmware aggregate line, empty phony when the class is
empty (lines 279-282 etc.). -/
def aggChunk (nm : String) (ts : List String) : String :=
  if ts.isEmpty then "build " ++ nm ++ ": phony\n\n"
  else "build " ++ nm ++ ": phony " ++
    joinSp (ts.map (fun t => "$firmdir/" ++ t ++ ".bin")) ++ "\n\n"

/-- Render one library compile statement to its text (lines 310-311). -/
def libChunkOf (s : BuildStmt) : String :=
  "build " ++ joinSp s.outputs ++ ": " ++ s.rule ++ " " ++ joinSp s.inputsE ++ "\n" ++
  String.join (s.vars.map (fun kv => "  " ++ kv.1 ++ " = " ++ kv.2 ++ "\n")) ++ "\n"

/-- One complex target's block (lines 315-336). -/
def complexChunk (e : Env) (t : String) : String :=
  match dictGet t (genCat e).complexDeps with
  | some ds =>
    "build $builddir/" ++ t ++ ".o: cc_newlib_with_flags $firmdir/" ++ t ++
    ".c\n  cflags_extra = " ++ joinSp (ds.map (fun l => "-I" ++ l.inc)) ++
    "\n\nbuild $firmdir/" ++ t ++ ".elf: ld_newlib " ++
    joinSp ("$builddir/fw_start.o" :: ("$builddir/" ++ t ++ ".o") :: libObjsOf ds) ++
    "\n  ldscript = $firmdir/linker.ld\nbuild $firmdir/" ++ t ++
    ".bin: objcopy $firmdir/" ++ t ++ ".elf\n\n"
  | none => ""

/-- The gateware block written at line 351, with the filtered hdl list
spliced in (empty list gives the same trailing spaces as `' '.join([])`). -/
def hdlText (e : Env) : String :=
  "# FPGA Gateware\nbuild $builddir/ice40_picorv32.json: synthesis " ++
  joinSp (hdlFiltered e) ++ "\n  in = " ++ joinSp (hdlFiltered e) ++
  "\n\nbuild $builddir/ice40_picorv32.asc: pnr $builddir/ice40_picorv32.json\n  pcf = $hdldir/ice40_picorv32.pcf\n\nbuild $builddir/ice40_picorv32.bin: pack $builddir/ice40_picorv32.asc\n\nbuild $builddir/timing.rpt: timing $builddir/ice40_picorv32.asc\n\nbuild bitstream: phony $builddir/ice40_picorv32.bin\n\nbuild gateware: phony bitstream $builddir/timing.rpt\n\n"

/-- The host-tool block written at line 369. -/
def hostText : String :=
  "# Host Tools\nbuild $toolsdir/fw_upload: host_cc $toolsdir/fw_upload.c\n\nbuild uploader: phony $toolsdir/fw_upload\n\n"

/-- The artifacts block written at line 377. -/
def artifactsText : String :=
  "# Artifacts\nbuild $artifactsdir/host/fw_upload: copy $toolsdir/fw_upload | $artifactsdir/host\nbuild $artifactsdir/gateware/ice40_picorv32.bin: copy $builddir/ice40_picorv32.bin | $artifactsdir/gateware\nbuild $artifactsdir/firmware: phony\n\nrule collect_firmware\n  command = mkdir -p $artifactsdir/firmware && cp $firmdir/*.bin $artifactsdir/firmware/ 2>/dev/null || true\n  description = Collecting firmware artifacts\n\nbuild collect-firmware: collect_firmware | firmware-all\n\nbuild $artifactsdir/host: mkdir\nbuild $artifactsdir/gateware: mkdir\n\nbuild artifacts: phony $artifactsdir/host/fw_upload $artifactsdir/gateware/ice40_picorv32.bin collect-firmware\n\n"

/-- The top-level block written at line 396. -/
def topText : String :=
  "# Top-level targets\nbuild all: phony bootloader firmware-all gateware uploader artifacts\n\ndefault all\n\n"

/-- Every chunk `generate_ninja` writes to `build.ninja`, in write order. -/
def textChunks (e : Env) : List String :=
  [headerText, configText e, rulesText, bootText,
   "# Firmware (bare metal)\n",
   "build $builddir/fw_start.o: as_bare $firmdir/start.S\n\n"] ++
  (genCat e).bare.map bareChunk ++
  [aggChunk "firmware-bare" (genCat e).bare, "# Firmware (with newlib)\n"] ++
  (genCat e).newlib.map newlibChunk ++
  [aggChunk "firmware-newlib" (genCat e).newlib, "# Firmware (with libraries)\n"] ++
  (libStmts e).map libChunkOf ++
  (genCat e).complexFw.map (complexChunk e) ++
  [aggChunk "firmware-complex" (genCat e).complexFw,
   "build firmware-all: phony firmware-bare firmware-newlib firmware-complex\n\n",
   hdlText e, hostText, artifactsText, topText]

/-- The full text of the generated `build.ninja` file. -/
def generate_ninja (e : Env) : String := String.join (textChunks e)

/-- The observable filesystem operations of a generator run that touch
firmware sources or the output file: the classification-stage reads of
`categorize_firmware` (lines 102-103, skipped units are never opened),
then the `open('build.ninja', 'w')` truncation (line 143), then the
incremental writes. -/
inductive Op where
  | readSrc (p : String)
  | openOut
  | writeOut (c : String)
deriving DecidableEq

/-- The classification-stage reads, in glob order. -/
def classifyReads (e : Env) : List Op :=
  (e.firmware.filter (fun pc => !(skipList.contains (targetName pc.1)))).map
    (fun pc => Op.readSrc pc.1)

/-- The full operation trace of one generator run. -/
def genOps (e : Env) : List Op :=
  classifyReads e ++ [Op.openOut] ++ (textChunks e).map Op.writeOut

/-- State of the output file on disk: still holding its previous content,
or replaced by the given (possibly partial) new content. -/
inductive OutFile where
  | keep
  | replaced (content : String)
deriving DecidableEq

/-- Effect of one operation on the output-file state: reads leave it
alone, `open(..., 'w')` truncates it immediately, each write appends. -/
def applyOp (f : OutFile) : Op → OutFile
  | .readSrc _ => f
  | .openOut => .replaced ""
  | .writeOut c =>
    match f with
    | .keep => .keep
    | .replaced s => .replaced (s ++ c)

/-- Output-file state after the first `k` operations succeed and the
run aborts (operation `k`, if any, fails before taking effect). -/
def runOps (k : Nat) (ops : List Op) : OutFile :=
  (ops.take k).foldl applyOp .keep

/-- The snapshot-relative source files a build input may legitimately
name, in the `$dir`-variable spelling the statements use. -/
def fixedSources : List String :=
  ["$bootdir/bootloader.c", "$bootdir/start.S", "$firmdir/start.S",
   "$toolsdir/fw_upload.c"]

/-- Is `i` an original source file of the snapshot (as spelled in the
emitted statements)? -/
def sourceB (e : Env) (i : String) : Bool :=
  fixedSources.contains i ||
  e.firmware.any (fun pc => i == "$firmdir/" ++ baseName pc.1) ||
  (libraries e).any (fun l => l.sources.contains i) ||
  e.hdl.contains i

/-- Is `i` produced as an output of some emitted statement? -/
def producedB (e : Env) (i : String) : Bool :=
  (ninjaStmts e).any (fun s => s.outputs.contains i)

/-- All declared inputs of emitted statements that are neither produced
by another statement nor original source files. -/
def danglingInputs (e : Env) : List String :=
  (ninjaStmts e).flatMap (fun s =>
    (s.inputsE ++ s.inputsI).filter (fun i => !(producedB e i) && !(sourceB e i)))

/-- Does the emitted graph contain a dangling input reference? -/
def hasDangling (e : Env) : Bool := !(danglingInputs e).isEmpty

/-- A filesystem snapshot: the data the generator reads (`env`) together
with per-file modification times, which the generator never consults. -/
structure Snapshot where
  env : Env
  mtimes : List (String × Nat)
deriving DecidableEq

/-- The target names of all discovered firmware files, in glob order. -/
def targetNames (e : Env) : List String :=
  e.firmware.map (fun pc => targetName pc.1)

/-- All library object names of the snapshot's library table. -/
def libObjList (e : Env) : List String :=
  (libraries e).flatMap (fun l => l.sources.map (fun src => libObjName l.name src))

/-- Well-formedness of a snapshot, as guaranteed by the filesystem for
the glob results the script consumes: distinct target names, distinct
library sources living under their library's directory, and no
accidental collisions between library object names and the startup or
firmware object names. -/
structure WF (e : Env) : Prop where
  ndTargets : (targetNames e).Nodup
  ndLibSrcs : ∀ l ∈ libraries e, l.sources.Nodup
  libSrcHead : ∀ l ∈ libraries e, ∀ s ∈ l.sources, s.data.head? = some 'l'
  srcDisj : ∀ l₁ ∈ libraries e, ∀ l₂ ∈ libraries e, l₁.name ≠ l₂.name →
    ∀ s ∈ l₁.sources, s ∉ l₂.sources
  ndObjs : (libObjList e).Nodup
  noOwnClash : ∀ t ∈ targetNames e, ("$builddir/" ++ t ++ ".o") ∉ libObjList e
  noStartClash : "$builddir/fw_start.o" ∉ libObjList e
  noFwStart : "fw_start" ∉ targetNames e

/-- Keys of the `complex_deps` dict model. -/
def keysOf (d : List (String × List LibEntry)) : List String := d.map Prod.fst

lemma dictGet_eq_none (k : String) (d : List (String × List LibEntry)) :
    dictGet k d = none ↔ k ∉ keysOf d := by
  induction d with
  | nil => simp [dictGet, keysOf]
  | cons kv rest ih =>
    obtain ⟨k', v⟩ := kv
    by_cases h : k' = k
    · subst h
      simp [dictGet, keysOf]
    · simp [dictGet, h, keysOf, Ne.symm h] at ih ⊢
      exact ih

lemma mem_of_dictGet {k : String} {v : List LibEntry}
    {d : List (String × List LibEntry)} (h : dictGet k d = some v) : (k, v) ∈ d := by
  induction d with
  | nil => simp [dictGet] at h
  | cons kv rest ih =>
    obtain ⟨k', v'⟩ := kv
    by_cases hkk : k' = k
    · subst hkk
      simp [dictGet] at h
      subst h
      exact List.mem_cons_self _ _
    · simp [dictGet, hkk] at h
      exact List.mem_cons_of_mem _ (ih h)

lemma mem_of_mem_dictPromote {k : String} {v : List LibEntry}
    {d : List (String × List LibEntry)} {t : String} {ds : List LibEntry}
    (h : (t, ds) ∈ dictPromote k v d) :
    (t, ds) = (k, v) ∨ (t, ds) ∈ d := by
  unfold dictPromote at h
  cases hg : dictGet k d with
  | some v0 =>
    rw [hg] at h
    rcases List.mem_cons.mp h with h1 | h1
    · right
      rw [h1]
      exact mem_of_dictGet hg
    · right
      exact List.mem_of_mem_filter h1
  | none =>
    rw [hg] at h
    rcases List.mem_cons.mp h with h1 | h1
    · left; exact h1
    · right; exact h1

lemma keys_nodup_dictPromote {k : String} {v : List LibEntry}
    {d : List (String × List LibEntry)} (h : (keysOf d).Nodup) :
    (keysOf (dictPromote k v d)).Nodup := by
  unfold dictPromote
  cases hg : dictGet k d with
  | some v0 =>
    have hsub : (d.filter (fun kv => kv.1 ≠ k)).Sublist d := List.filter_sublist d
    have hnd : (keysOf (d.filter (fun kv => kv.1 ≠ k))).Nodup :=
      List.Nodup.sublist (List.Sublist.map Prod.fst hsub) h
    refine List.Nodup.cons ?_ hnd
    intro hmem
    simp only [keysOf, List.mem_map] at hmem
    obtain ⟨kv, hkv, hfst⟩ := hmem
    have hne := List.of_mem_filter hkv
    simp only [decide_not, Bool.not_eq_true', decide_eq_false_iff_not] at hne
    exact hne hfst
  | none =>
    refine List.Nodup.cons ?_ h
    intro hmem
    have hk : k ∉ keysOf d := (dictGet_eq_none k d).mp hg
    exact hk hmem

lemma dictGet_of_mem {d : List (String × List LibEntry)}
    (hnd : (keysOf d).Nodup) {t : String} {ds : List LibEntry}
    (h : (t, ds) ∈ d) : dictGet t d = some ds := by
  induction d with
  | nil => simp at h
  | cons kv rest ih =>
    obtain ⟨k', v'⟩ := kv
    simp only [keysOf, List.map_cons, List.nodup_cons] at hnd
    rcases List.mem_cons.mp h with h1 | h1
    · rw [Prod.mk.injEq] at h1
      simp [dictGet, h1.1.symm, h1.2]
    · have hne : k' ≠ t := by
        intro hkk
        subst hkk
        exact hnd.1 (List.mem_map.mpr ⟨(k', ds), h1, rfl⟩)
      simp only [dictGet, if_neg hne]
      exact ih hnd.2 h1

lemma categorize_sublists (e : Env) (fw : List (String × String)) :
    (categorizeList e fw).bare.Sublist (fw.map (fun pc => targetName pc.1)) ∧
    (categorizeList e fw).newlib.Sublist (fw.map (fun pc => targetName pc.1)) ∧
    (categorizeList e fw).complexFw.Sublist (fw.map (fun pc => targetName pc.1)) := by
  induction fw with
  | nil => simp [categorizeList]
  | cons pc rest ih =>
    obtain ⟨p, c⟩ := pc
    obtain ⟨ihb, ihn, ihc⟩ := ih
    simp only [categorizeList, List.map_cons]
    split_ifs with h1 h2 h3
    · exact ⟨ihb.cons _, ihn.cons _, ihc.cons _⟩
    · exact ⟨ihb.cons _, ihn.cons _, ihc.cons₂ _⟩
    · exact ⟨ihb.cons _, ihn.cons₂ _, ihc.cons _⟩
    · exact ⟨ihb.cons₂ _, ihn.cons _, ihc.cons _⟩

lemma keys_nodup_categorize (e : Env) (fw : List (String × String)) :
    (keysOf (categorizeList e fw).complexDeps).Nodup := by
  induction fw with
  | nil => simp [categorizeList, keysOf]
  | cons pc rest ih =>
    obtain ⟨p, c⟩ := pc
    simp only [categorizeList]
    split_ifs with h1 h2 h3
    · exact ih
    · exact keys_nodup_dictPromote ih
    · exact ih
    · exact ih

lemma mem_complexFw_of_mem_deps (e : Env) (fw : List (String × String))
    {t : String} {ds : List LibEntry}
    (h : (t, ds) ∈ (categorizeList e fw).complexDeps) :
    t ∈ (categorizeList e fw).complexFw := by
  induction fw with
  | nil => simp [categorizeList] at h
  | cons pc rest ih =>
    obtain ⟨p, c⟩ := pc
    simp only [categorizeList] at h ⊢
    split_ifs at h ⊢ with h1 h2 h3
    · exact ih h
    · rcases mem_of_mem_dictPromote h with he | hm
      · rw [Prod.mk.injEq] at he
        exact List.mem_cons.mpr (Or.inl he.1)
      · exact List.mem_cons.mpr (Or.inr (ih hm))
    · exact ih h
    · exact ih h

lemma deps_val (e : Env) (fw : List (String × String))
    {t : String} {ds : List LibEntry}
    (h : (t, ds) ∈ (categorizeList e fw).complexDeps) :
    ∃ c, ds = usesLibs e c := by
  induction fw with
  | nil => simp [categorizeList] at h
  | cons pc rest ih =>
    obtain ⟨p, c⟩ := pc
    simp only [categorizeList] at h
    split_ifs at h with h1 h2 h3
    · exact ih h
    · rcases mem_of_mem_dictPromote h with he | hm
      · rw [Prod.mk.injEq] at he
        exact ⟨c, he.2⟩
      · exact ih hm
    · exact ih h
    · exact ih h

lemma genCat_keys_nodup (e : Env) : (keysOf (genCat e).complexDeps).Nodup := by
  unfold genCat
  split
  · exact keys_nodup_categorize e e.firmware
  · simp [keysOf]

lemma genCat_mem_complexFw {e : Env} {t : String} {ds : List LibEntry}
    (h : (t, ds) ∈ (genCat e).complexDeps) : t ∈ (genCat e).complexFw := by
  unfold genCat at h ⊢
  split at h
  · next hn =>
    simp only [if_pos hn]
    exact mem_complexFw_of_mem_deps e e.firmware h
  · simp at h

lemma genCat_deps_val {e : Env} {t : String} {ds : List LibEntry}
    (h : (t, ds) ∈ (genCat e).complexDeps) : ∃ c, ds = usesLibs e c := by
  unfold genCat at h
  split at h
  · exact deps_val e e.firmware h
  · simp at h

lemma genCat_dictGet {e : Env} {t : String} {ds : List LibEntry}
    (h : (t, ds) ∈ (genCat e).complexDeps) :
    dictGet t (genCat e).complexDeps = some ds :=
  dictGet_of_mem (genCat_keys_nodup e) h

lemma genCat_bare_sub (e : Env) : (genCat e).bare.Sublist (targetNames e) := by
  unfold genCat
  split
  · exact (categorize_sublists e e.firmware).1
  · exact (categorize_sublists e e.firmware).1

lemma genCat_newlib_sub (e : Env) : (genCat e).newlib.Sublist (targetNames e) := by
  unfold genCat
  split
  · exact (categorize_sublists e e.firmware).2.1
  · exact List.nil_sublist _

lemma genCat_complexFw_sub (e : Env) :
    (genCat e).complexFw.Sublist (targetNames e) := by
  unfold genCat
  split
  · exact (categorize_sublists e e.firmware).2.2
  · exact List.nil_sublist _

lemma deps_sub {e : Env} {t : String} {ds : List LibEntry}
    (h : (t, ds) ∈ (genCat e).complexDeps) : ds.Sublist (libraries e) := by
  obtain ⟨c, hc⟩ := genCat_deps_val h
  rw [hc]
  exact List.filter_sublist _

lemma mem_complexStmts {e : Env} {t : String} {ds : List LibEntry}
    (h : (t, ds) ∈ (genCat e).complexDeps) :
    complexCompileStmt t ds ∈ complexStmts e ∧
    complexLinkStmt t ds ∈ complexStmts e := by
  have ht := genCat_mem_complexFw h
  have hg := genCat_dictGet h
  unfold complexStmts
  refine ⟨List.mem_flatMap.mpr ⟨t, ht, ?_⟩, List.mem_flatMap.mpr ⟨t, ht, ?_⟩⟩ <;>
    (rw [hg]; simp)

lemma mem_ninja_of_complex {e : Env} {s : BuildStmt}
    (h : s ∈ complexStmts e) : s ∈ ninjaStmts e := by
  unfold ninjaStmts
  simp only [List.mem_append]
  tauto

lemma mem_ninja_of_lib {e : Env} {s : BuildStmt}
    (h : s ∈ libStmts e) : s ∈ ninjaStmts e := by
  unfold ninjaStmts
  simp only [List.mem_append]
  tauto

lemma mem_ninja_of_bare {e : Env} {s : BuildStmt}
    (h : s ∈ bareStmts e) : s ∈ ninjaStmts e := by
  unfold ninjaStmts
  simp only [List.mem_append]
  tauto

lemma mem_ninja_of_newlib {e : Env} {s : BuildStmt}
    (h : s ∈ newlibStmts e) : s ∈ ninjaStmts e := by
  unfold ninjaStmts
  simp only [List.mem_append]
  tauto

/-- C1: a firmware unit whose leading content carries both a library
marker (a `lib/<name>/` path fragment or `<name>.h` header name) and a
standard-runtime marker is classified `LibraryDependent`, not
`MinimalRuntime`: the library check of lines 105-114 runs first and
wins over the runtime-marker check of line 115. -/
theorem claim_C1 (e : Env) (content : String)
    (hlib : ∃ l ∈ libraries e, mentionsLib content l = true)
    (hrt : usesNewlib content = true) :
    classify e content = BuildClass.libraryDependent ∧
    classify e content ≠ BuildClass.minimalRuntime := by
  have hne : usesLibs e content ≠ [] := by
    obtain ⟨l, hl, hm⟩ := hlib
    intro hempty
    have hmem : l ∈ usesLibs e content := List.mem_filter.mpr ⟨hl, hm⟩
    rw [hempty] at hmem
    simp at hmem
  refine ⟨by simp [classify, hne], by simp [classify, hne]⟩

/-- A default environment for concrete witnesses. -/
def envW (fw : List (String × String)) : Env :=
  { firmware := fw,
    incursesSrcs := ["lib/incurses/incurses.c"],
    microrlSrcs := ["lib/microrl/microrl.c"],
    simpleUploadSrcs := ["lib/simple_upload/simple_upload.c"],
    hdl := ["hdl/ice40_picorv32_top.v", "hdl/uart.v"],
    nproc := "8", toolchain := "riscv64-unknown-elf-",
    yosys := "yosys", nextpnr := "nextpnr-ice40",
    icepack := "icepack", icetime := "icetime",
    newlibAvailable := true }

/-- Witness for C1 at a concrete unit content carrying both a library
marker and a runtime marker. -/
theorem claim_C1_witness :
    (∃ l ∈ libraries (envW []), mentionsLib "#include <stdio.h>\n#include \"microrl.h\"" l = true) ∧
    usesNewlib "#include <stdio.h>\n#include \"microrl.h\"" = true ∧
    classify (envW []) "#include <stdio.h>\n#include \"microrl.h\"" = BuildClass.libraryDependent ∧
    classify (envW []) "#include <stdio.h>\n#include \"microrl.h\"" ≠ BuildClass.minimalRuntime := by
  have h1 : ∃ l ∈ libraries (envW []),
      mentionsLib "#include <stdio.h>\n#include \"microrl.h\"" l = true := by decide
  have h2 : usesNewlib "#include <stdio.h>\n#include \"microrl.h\"" = true := by decide
  have h3 := claim_C1 (envW []) "#include <stdio.h>\n#include \"microrl.h\"" h1 h2
  exact ⟨h1, h2, h3.1, h3.2⟩

/-- Is `s` a `cc_newlib_with_flags` compile statement for exactly the
source file `src`? -/
def isLibCompileFor (src : String) (s : BuildStmt) : Bool :=
  decide (s.rule = "cc_newlib_with_flags" ∧ s.inputsE = [src])

lemma name_inj (e : Env) {l₁ l₂ : LibEntry} (h₁ : l₁ ∈ libraries e)
    (h₂ : l₂ ∈ libraries e) (h : l₁.name = l₂.name) : l₁ = l₂ := by
  simp only [libraries, List.mem_cons, List.not_mem_nil, or_false] at h₁ h₂
  rcases h₁ with rfl | rfl | rfl <;> rcases h₂ with rfl | rfl | rfl <;>
    first
      | rfl
      | (dsimp only at h; exact absurd h (by decide))

lemma countP_map_libCompile (l : LibEntry) (src : String) :
    (l.sources.map (fun s' => libCompileStmt l s')).countP (isLibCompileFor src) =
      l.sources.count src := by
  rw [List.countP_map]
  have h : l.sources.count src = l.sources.countP (fun s' => s' == src) := by
    simp [List.count]
  rw [h]
  refine List.countP_congr ?_
  intro s' _
  simp [Function.comp, isLibCompileFor, libCompileStmt]

lemma countP_emitLibsFor (e : Env) (hwf : WF e) {l : LibEntry}
    (hl : l ∈ libraries e) {src : String} (hsrc : src ∈ l.sources)
    (ds : List LibEntry) (hds : ∀ l' ∈ ds, l' ∈ libraries e)
    (built : List String) :
    ((emitLibsFor ds built).1.countP (isLibCompileFor src) =
      if l.name ∈ built then 0 else if l ∈ ds then 1 else 0) ∧
    (l.name ∈ (emitLibsFor ds built).2 ↔ (l.name ∈ built ∨ l ∈ ds)) := by
  induction ds generalizing built with
  | nil =>
    constructor <;> simp [emitLibsFor]
  | cons l' ds ih =>
    have hds' : ∀ x ∈ ds, x ∈ libraries e := fun x hx => hds x (List.mem_cons_of_mem _ hx)
    have hl' : l' ∈ libraries e := hds l' (List.mem_cons_self _ _)
    simp only [emitLibsFor]
    by_cases hbm : l'.name ∈ built
    · rw [if_pos (by simpa using hbm)]
      obtain ⟨ihc, ihm⟩ := ih hds' built
      by_cases hbl : l.name ∈ built
      · refine ⟨?_, ?_⟩
        · rw [ihc]
          simp [hbl]
        · rw [ihm]
          simp [hbl]
      · have hne : l ≠ l' := fun hleq => hbl (hleq ▸ hbm)
        refine ⟨?_, ?_⟩
        · rw [ihc]
          by_cases hld : l ∈ ds <;> simp [hbl, hld, hne]
        · rw [ihm]
          by_cases hld : l ∈ ds <;> simp [hbl, hld, hne]
    · rw [if_neg (by simpa using hbm)]
      obtain ⟨ihc, ihm⟩ := ih hds' (l'.name :: built)
      by_cases hll : l' = l
      · subst hll
        have hcnt : l'.sources.count src = 1 :=
          List.count_eq_one_of_mem (hwf.ndLibSrcs l' hl) hsrc
        refine ⟨?_, ?_⟩
        · rw [List.countP_append, countP_map_libCompile, hcnt, ihc]
          simp [hbm]
        · rw [ihm]
          simp
      · have hnn : l'.name ≠ l.name := fun hEq => hll (name_inj e hl' hl hEq)
        have hne' : l ≠ l' := fun hEq => hll hEq.symm
        have hsrc0 : src ∉ l'.sources :=
          fun hmem => hwf.srcDisj l hl l' hl' (fun hEq => hnn hEq.symm) src hsrc hmem
        have hcnt : l'.sources.count src = 0 := List.count_eq_zero.mpr hsrc0
        refine ⟨?_, ?_⟩
        · rw [List.countP_append, countP_map_libCompile, hcnt, ihc]
          by_cases hld : l ∈ ds <;>
            simp [hld, Ne.symm hnn, hne']
        · rw [ihm]
          by_cases hld : l ∈ ds <;>
            simp [hld, Ne.symm hnn, hne']

lemma countP_emitAllLibs (e : Env) (hwf : WF e) {l : LibEntry}
    (hl : l ∈ libraries e) {src : String} (hsrc : src ∈ l.sources)
    (d : List (String × List LibEntry))
    (hd : ∀ td ∈ d, ∀ l' ∈ td.2, l' ∈ libraries e)
    (built : List String) :
    ((emitAllLibs d built).1.countP (isLibCompileFor src) =
      if l.name ∈ built then 0 else if ∃ td ∈ d, l ∈ td.2 then 1 else 0) ∧
    (l.name ∈ (emitAllLibs d built).2 ↔
      (l.name ∈ built ∨ ∃ td ∈ d, l ∈ td.2)) := by
  induction d generalizing built with
  | nil => constructor <;> simp [emitAllLibs]
  | cons td rest ih =>
    obtain ⟨t, ds⟩ := td
    have hds : ∀ l' ∈ ds, l' ∈ libraries e := hd (t, ds) (List.mem_cons_self _ _)
    have hrest : ∀ td ∈ rest, ∀ l' ∈ td.2, l' ∈ libraries e :=
      fun td htd => hd td (List.mem_cons_of_mem _ htd)
    simp only [emitAllLibs]
    obtain ⟨hc1, hm1⟩ := countP_emitLibsFor e hwf hl hsrc ds hds built
    obtain ⟨ihc, ihm⟩ := ih hrest (emitLibsFor ds built).2
    by_cases hbl : l.name ∈ built
    · refine ⟨?_, ?_⟩
      · rw [List.countP_append, hc1, ihc,
          if_pos (hm1.mpr (Or.inl hbl))]
        simp [hbl]
      · rw [ihm]
        simp [hbl, hm1.mpr (Or.inl hbl)]
    · by_cases hld : l ∈ ds
      · refine ⟨?_, ?_⟩
        · rw [List.countP_append, hc1, ihc,
            if_pos (hm1.mpr (Or.inr hld))]
          simp [hbl, hld]
        · rw [ihm]
          simp [hm1.mpr (Or.inr hld), hld]
      · have hint : l.name ∉ (emitLibsFor ds built).2 := by
          rw [hm1]
          simp [hbl, hld]
        refine ⟨?_, ?_⟩
        · rw [List.countP_append, hc1, ihc, if_neg hint, if_neg hbl, if_neg hld]
          by_cases hex : ∃ td ∈ rest, l ∈ td.2 <;> simp [hex, hld, hbl]
        · rw [ihm]
          simp [hint, hbl, hld, hm1]

lemma mem_emitLibsFor (e : Env) {l : LibEntry} (hl : l ∈ libraries e)
    {src : String} (hsrc : src ∈ l.sources) :
    ∀ ds : List LibEntry, (∀ l' ∈ ds, l' ∈ libraries e) →
    ∀ built : List String, l ∈ ds → l.name ∉ built →
    libCompileStmt l src ∈ (emitLibsFor ds built).1 := by
  intro ds
  induction ds with
  | nil => intro _ _ h _; simp at h
  | cons l' ds ih =>
    intro hds built hmem hnb
    have hds' : ∀ x ∈ ds, x ∈ libraries e := fun x hx => hds x (List.mem_cons_of_mem _ hx)
    have hl' : l' ∈ libraries e := hds l' (List.mem_cons_self _ _)
    simp only [emitLibsFor]
    by_cases hll : l' = l
    · subst hll
      rw [if_neg (by simpa using hnb)]
      exact List.mem_append.mpr (Or.inl (List.mem_map.mpr ⟨src, hsrc, rfl⟩))
    · have hld : l ∈ ds := by
        rcases List.mem_cons.mp hmem with h | h
        · exact absurd h.symm hll
        · exact h
      have hnn : l'.name ≠ l.name := fun hEq => hll (name_inj e hl' hl hEq)
      by_cases hb : l'.name ∈ built
      · rw [if_pos (by simpa using hb)]
        exact ih hds' built hld hnb
      · rw [if_neg (by simpa using hb)]
        refine List.mem_append.mpr (Or.inr ?_)
        refine ih hds' (l'.name :: built) hld ?_
        simp [hnb, Ne.symm hnn]

lemma mem_emitAllLibs (e : Env) (hwf : WF e) {l : LibEntry}
    (hl : l ∈ libraries e) {src : String} (hsrc : src ∈ l.sources) :
    ∀ d : List (String × List LibEntry),
    (∀ td ∈ d, ∀ l' ∈ td.2, l' ∈ libraries e) →
    ∀ built : List String, (∃ td ∈ d, l ∈ td.2) → l.name ∉ built →
    libCompileStmt l src ∈ (emitAllLibs d built).1 := by
  intro d
  induction d with
  | nil => intro _ _ h _; simp at h
  | cons td rest ih =>
    intro hd built hex hnb
    obtain ⟨t, ds⟩ := td
    have hds : ∀ l' ∈ ds, l' ∈ libraries e := hd (t, ds) (List.mem_cons_self _ _)
    have hrest : ∀ td ∈ rest, ∀ l' ∈ td.2, l' ∈ libraries e :=
      fun td htd => hd td (List.mem_cons_of_mem _ htd)
    simp only [emitAllLibs]
    obtain ⟨-, hm1⟩ := countP_emitLibsFor e hwf hl hsrc ds hds built
    by_cases hld : l ∈ ds
    · exact List.mem_append.mpr (Or.inl (mem_emitLibsFor e hl hsrc ds hds built hld hnb))
    · have hex' : ∃ td ∈ rest, l ∈ td.2 := by
        rcases hex with ⟨td, htd, hl2⟩
        rcases List.mem_cons.mp htd with h | h
        · rw [h] at hl2
          exact absurd hl2 hld
        · exact ⟨td, h, hl2⟩
      have hint : l.name ∉ (emitLibsFor ds built).2 := by
        rw [hm1]
        simp [hnb, hld]
      exact List.mem_append.mpr (Or.inr (ih hrest (emitLibsFor ds built).2 hex' hint))

lemma notLibCompile {src : String} {s : BuildStmt}
    (h : s.rule ≠ "cc_newlib_with_flags") : ¬ isLibCompileFor src s = true := by
  unfold isLibCompileFor
  simp only [decide_eq_true_eq]
  rintro ⟨h1, -⟩
  exact h h1

lemma notLibCompileInput {src : String} {s : BuildStmt}
    (h : s.inputsE ≠ [src]) : ¬ isLibCompileFor src s = true := by
  unfold isLibCompileFor
  simp only [decide_eq_true_eq]
  rintro ⟨-, h2⟩
  exact h h2

lemma data_head_append (a : String) (c : Char) (cs : List Char)
    (ha : a.data = c :: cs) (t b : String) :
    (a ++ t ++ b).data.head? = some c := by
  simp [String.data_append, ha]

lemma fwInput_ne_libSrc (e : Env) (hwf : WF e) {l : LibEntry}
    (hl : l ∈ libraries e) {src : String} (hsrc : src ∈ l.sources)
    (t : String) : (["$firmdir/" ++ t ++ ".c"] : List String) ≠ [src] := by
  intro h
  have h1 : "$firmdir/" ++ t ++ ".c" = src := by
    simpa using h
  have h2 := hwf.libSrcHead l hl src hsrc
  have h3 : ("$firmdir/" ++ t ++ ".c").data.head? = some '$' :=
    data_head_append "$firmdir/" '$' "firmdir/".data (by decide) t ".c"
  rw [h1, h2] at h3
  exact absurd h3 (by decide)

lemma countP_bootStmts (src : String) :
    bootStmts.countP (isLibCompileFor src) = 0 := by
  apply List.countP_eq_zero.mpr
  intro s hs
  simp only [bootStmts, List.mem_cons, List.not_mem_nil, or_false] at hs
  rcases hs with rfl | rfl | rfl | rfl | rfl | rfl <;>
    exact notLibCompile (by decide)

lemma countP_fwStartL (src : String) :
    ([fwStartStmt] : List BuildStmt).countP (isLibCompileFor src) = 0 := by
  apply List.countP_eq_zero.mpr
  intro s hs
  simp only [List.mem_singleton] at hs
  subst hs
  exact notLibCompile (by decide)

lemma countP_bareStmts (e : Env) (src : String) :
    (bareStmts e).countP (isLibCompileFor src) = 0 := by
  apply List.countP_eq_zero.mpr
  intro s hs
  unfold bareStmts at hs
  rcases List.mem_append.mp hs with hs | hs
  · obtain ⟨t, -, hmem⟩ := List.mem_flatMap.mp hs
    simp only [List.mem_cons, List.not_mem_nil, or_false] at hmem
    rcases hmem with rfl | rfl | rfl <;>
      simp [isLibCompileFor, compileBareStmt, linkBareStmt, binStmt]
  · simp only [List.mem_singleton] at hs
    subst hs
    simp [isLibCompileFor, classAgg]

lemma countP_newlibStmts (e : Env) (src : String) :
    (newlibStmts e).countP (isLibCompileFor src) = 0 := by
  apply List.countP_eq_zero.mpr
  intro s hs
  unfold newlibStmts at hs
  rcases List.mem_append.mp hs with hs | hs
  · obtain ⟨t, -, hmem⟩ := List.mem_flatMap.mp hs
    simp only [List.mem_cons, List.not_mem_nil, or_false] at hmem
    rcases hmem with rfl | rfl | rfl <;>
      simp [isLibCompileFor, compileNewlibStmt, linkNewlibStmt, binStmt]
  · simp only [List.mem_singleton] at hs
    subst hs
    simp [isLibCompileFor, classAgg]

lemma countP_complexStmts0 (e : Env) (hwf : WF e) {l : LibEntry}
    (hl : l ∈ libraries e) {src : String} (hsrc : src ∈ l.sources) :
    (complexStmts e).countP (isLibCompileFor src) = 0 := by
  apply List.countP_eq_zero.mpr
  intro s hs
  unfold complexStmts at hs
  obtain ⟨t, -, hmem⟩ := List.mem_flatMap.mp hs
  cases hdg : dictGet t (genCat e).complexDeps with
  | none =>
    rw [hdg] at hmem
    simp at hmem
  | some ds =>
    rw [hdg] at hmem
    simp only [List.mem_cons, List.not_mem_nil, or_false] at hmem
    rcases hmem with rfl | rfl | rfl
    · exact notLibCompileInput (fwInput_ne_libSrc e hwf hl hsrc t)
    · simp [isLibCompileFor, complexLinkStmt]
    · simp [isLibCompileFor, binStmt]

lemma countP_aggPair (e : Env) (src : String) :
    ([classAgg "firmware-complex" (genCat e).complexFw, fwAllStmt] : List BuildStmt).countP
      (isLibCompileFor src) = 0 := by
  apply List.countP_eq_zero.mpr
  intro s hs
  simp only [List.mem_cons, List.not_mem_nil, or_false] at hs
  rcases hs with rfl | rfl <;>
    simp [isLibCompileFor, classAgg, fwAllStmt]

lemma countP_synthL (e : Env) (src : String) :
    ([synthStmt e] : List BuildStmt).countP (isLibCompileFor src) = 0 := by
  apply List.countP_eq_zero.mpr
  intro s hs
  simp only [List.mem_singleton] at hs
  subst hs
  simp [isLibCompileFor, synthStmt]

lemma countP_gatewareStmts (src : String) :
    gatewareStmts.countP (isLibCompileFor src) = 0 := by
  apply List.countP_eq_zero.mpr
  intro s hs
  simp only [gatewareStmts, List.mem_cons, List.not_mem_nil, or_false] at hs
  rcases hs with rfl | rfl | rfl | rfl | rfl <;>
    exact notLibCompile (by decide)

lemma countP_toolArtifactStmts (src : String) :
    toolArtifactStmts.countP (isLibCompileFor src) = 0 := by
  apply List.countP_eq_zero.mpr
  intro s hs
  simp only [toolArtifactStmts, List.mem_cons, List.not_mem_nil, or_false] at hs
  rcases hs with rfl | rfl | rfl | rfl | rfl | rfl | rfl | rfl | rfl | rfl <;>
    exact notLibCompile (by decide)

lemma countP_ninjaStmts (e : Env) (hwf : WF e) {l : LibEntry}
    (hl : l ∈ libraries e) {src : String} (hsrc : src ∈ l.sources) :
    (ninjaStmts e).countP (isLibCompileFor src) =
      (libStmts e).countP (isLibCompileFor src) := by
  unfold ninjaStmts
  simp only [List.countP_append]
  rw [countP_bootStmts, countP_fwStartL, countP_bareStmts, countP_newlibStmts,
    countP_complexStmts0 e hwf hl hsrc, countP_aggPair, countP_synthL,
    countP_gatewareStmts, countP_toolArtifactStmts]
  omega

/-- C2: a library referenced by any number of `LibraryDependent` units is
compiled exactly once per module — the emitted statement list holds
exactly one `cc_newlib_with_flags` statement whose input is that module
(the dedup of `built_libs`, lines 303-312) — and every referencing
unit's link statement lists that module's shared object node. -/
theorem claim_C2 (e : Env) (hwf : WF e) {l : LibEntry} (hl : l ∈ libraries e)
    {t : String} {ds : List LibEntry} (hmem : (t, ds) ∈ (genCat e).complexDeps)
    (hld : l ∈ ds) {src : String} (hsrc : src ∈ l.sources) :
    (ninjaStmts e).countP (isLibCompileFor src) = 1 ∧
    libCompileStmt l src ∈ ninjaStmts e ∧
    ∀ t' ds', (t', ds') ∈ (genCat e).complexDeps → l ∈ ds' →
      complexLinkStmt t' ds' ∈ ninjaStmts e ∧
      libObjName l.name src ∈ (complexLinkStmt t' ds').inputsE := by
  have hd : ∀ td ∈ (genCat e).complexDeps, ∀ l' ∈ td.2, l' ∈ libraries e := by
    intro td htd l' hl'
    obtain ⟨t', ds'⟩ := td
    exact (deps_sub htd).subset hl'
  refine ⟨?_, ?_, ?_⟩
  · rw [countP_ninjaStmts e hwf hl hsrc]
    unfold libStmts
    obtain ⟨hc, -⟩ := countP_emitAllLibs e hwf hl hsrc (genCat e).complexDeps hd []
    rw [hc, if_neg (by simp), if_pos ⟨(t, ds), hmem, hld⟩]
  · exact mem_ninja_of_lib
      (mem_emitAllLibs e hwf hl hsrc (genCat e).complexDeps hd [] ⟨(t, ds), hmem, hld⟩
        (by simp))
  · intro t' ds' hmem' hld'
    refine ⟨mem_ninja_of_complex (mem_complexStmts hmem').2, ?_⟩
    simp only [complexLinkStmt, List.mem_cons]
    refine Or.inr (Or.inr ?_)
    exact List.mem_flatMap.mpr ⟨l, hld', List.mem_map.mpr ⟨src, hsrc, rfl⟩⟩

/-- The incurses library entry of the witness environments. -/
def incursesEntry : LibEntry :=
  ⟨"incurses", ["lib/incurses/incurses.c"], "lib/incurses"⟩

/-- A witness environment with two firmware units both referencing the
incurses library. -/
def eC2 : Env :=
  envW [("firmware/alpha.c", "#include \"incurses.h\""),
        ("firmware/beta.c", "#include \"incurses.h\"")]

/-- Witness for C2: two units reference incurses; its single module is
compiled exactly once. -/
theorem claim_C2_witness :
    WF eC2 ∧
    ("alpha", [incursesEntry]) ∈ (genCat eC2).complexDeps ∧
    ("beta", [incursesEntry]) ∈ (genCat eC2).complexDeps ∧
    (ninjaStmts eC2).countP (isLibCompileFor "lib/incurses/incurses.c") = 1 := by
  have hwf : WF eC2 :=
    ⟨by decide, by decide, by decide, by decide, by decide, by decide, by decide, by decide⟩
  have hl : incursesEntry ∈ libraries eC2 := by decide
  have hmemA : ("alpha", [incursesEntry]) ∈ (genCat eC2).complexDeps := by decide
  have hmemB : ("beta", [incursesEntry]) ∈ (genCat eC2).complexDeps := by decide
  have hld : incursesEntry ∈ [incursesEntry] := by decide
  have hsrc : "lib/incurses/incurses.c" ∈ incursesEntry.sources := by decide
  exact ⟨hwf, hmemA, hmemB, (claim_C2 eC2 hwf hl hmemA hld hsrc).1⟩

lemma appendInj {a b : String}
    (h : "$builddir/" ++ a ++ ".o" = "$builddir/" ++ b ++ ".o") : a = b := by
  have hd := congrArg String.data h
  simp only [String.data_append] at hd
  exact String.ext (List.append_cancel_left (List.append_cancel_right hd))

lemma ownObj_ne_start {t : String} (h : t ≠ "fw_start") :
    ("$builddir/" ++ t ++ ".o" : String) ≠ "$builddir/fw_start.o" := by
  intro hEq
  apply h
  apply appendInj
  exact hEq.trans (by decide)

lemma flatMapSublist {α β : Type} (f : α → List β) {l₁ l₂ : List α}
    (h : l₁.Sublist l₂) : (l₁.flatMap f).Sublist (l₂.flatMap f) := by
  induction h with
  | slnil => simp
  | cons a h ih =>
    simp only [List.flatMap_cons]
    exact ih.trans (List.sublist_append_right _ _)
  | cons₂ a h ih =>
    simp only [List.flatMap_cons]
    exact ih.append_left _

lemma libObjsOf_sublist {e : Env} {ds : List LibEntry}
    (h : ds.Sublist (libraries e)) : (libObjsOf ds).Sublist (libObjList e) :=
  flatMapSublist _ h

lemma nodup_linkInputs (e : Env) (hwf : WF e) {t : String} {ds : List LibEntry}
    (hmem : (t, ds) ∈ (genCat e).complexDeps) :
    (complexLinkStmt t ds).inputsE.Nodup := by
  have hsub : (libObjsOf ds).Sublist (libObjList e) := libObjsOf_sublist (deps_sub hmem)
  have hnd : (libObjsOf ds).Nodup := List.Nodup.sublist hsub hwf.ndObjs
  have ht : t ∈ targetNames e :=
    (genCat_complexFw_sub e).subset (genCat_mem_complexFw hmem)
  have hownlib : ("$builddir/" ++ t ++ ".o") ∉ libObjsOf ds :=
    fun hm => hwf.noOwnClash t ht (hsub.subset hm)
  have hstartlib : ("$builddir/fw_start.o" : String) ∉ libObjsOf ds :=
    fun hm => hwf.noStartClash (hsub.subset hm)
  have hts : t ≠ "fw_start" := fun hEq => hwf.noFwStart (hEq ▸ ht)
  have hso : ("$builddir/fw_start.o" : String) ≠ "$builddir/" ++ t ++ ".o" :=
    fun hEq => (ownObj_ne_start hts) hEq.symm
  show ("$builddir/fw_start.o" :: ("$builddir/" ++ t ++ ".o") :: libObjsOf ds).Nodup
  refine List.nodup_cons.mpr ⟨?_, List.nodup_cons.mpr ⟨hownlib, hnd⟩⟩
  simp only [List.mem_cons]
  rintro (h | h)
  · exact hso h
  · exact hstartlib h

/-- C3: a `LibraryDependent` unit's link statement lists exactly the
shared startup object, its own object, then its libraries' module
objects in resolver order, each exactly once; its compile statement's
extra flags are its libraries' include paths (lines 314-336). -/
theorem claim_C3 (e : Env) (hwf : WF e) {t : String} {ds : List LibEntry}
    (hmem : (t, ds) ∈ (genCat e).complexDeps) :
    complexCompileStmt t ds ∈ ninjaStmts e ∧
    (complexCompileStmt t ds).vars =
      [("cflags_extra", joinSp (ds.map (fun l => "-I" ++ l.inc)))] ∧
    complexLinkStmt t ds ∈ ninjaStmts e ∧
    (complexLinkStmt t ds).inputsE =
      "$builddir/fw_start.o" :: ("$builddir/" ++ t ++ ".o") :: libObjsOf ds ∧
    (complexLinkStmt t ds).inputsE.Nodup := by
  obtain ⟨h1, h2⟩ := mem_complexStmts hmem
  exact ⟨mem_ninja_of_complex h1, rfl, mem_ninja_of_complex h2, rfl,
    nodup_linkInputs e hwf hmem⟩

/-- The microrl library entry of the witness environments. -/
def microrlEntry : LibEntry :=
  ⟨"microrl", ["lib/microrl/microrl.c"], "lib/microrl"⟩

/-- A witness environment with one firmware unit referencing two
libraries, mentioning microrl before incurses in its content. -/
def eC3 : Env :=
  envW [("firmware/shell.c", "#include \"microrl.h\"\n#include \"incurses.h\"")]

/-- Witness for C3 at a unit depending on incurses and microrl. -/
theorem claim_C3_witness :
    WF eC3 ∧
    ("shell", [incursesEntry, microrlEntry]) ∈ (genCat eC3).complexDeps ∧
    (complexLinkStmt "shell" [incursesEntry, microrlEntry]).inputsE =
      "$builddir/fw_start.o" :: "$builddir/shell.o" ::
        libObjsOf [incursesEntry, microrlEntry] ∧
    (complexLinkStmt "shell" [incursesEntry, microrlEntry]).inputsE.Nodup := by
  have hwf : WF eC3 :=
    ⟨by decide, by decide, by decide, by decide, by decide, by decide, by decide, by decide⟩
  have hmem : ("shell", [incursesEntry, microrlEntry]) ∈ (genCat eC3).complexDeps := by
    decide
  have h := claim_C3 eC3 hwf hmem
  refine ⟨hwf, hmem, ?_, h.2.2.2.2⟩
  rw [h.2.2.2.1]
  decide

/-- C10: a `LibraryDependent` unit's recorded dependency list is a
sublist of the fixed library table, so its names — and the order of
library objects in its link statement — follow the declaration order
incurses, microrl, simple_upload, and depend only on which libraries are
mentioned, not on where in the content they are mentioned. -/
theorem claim_C10 (e : Env) {t : String} {ds : List LibEntry}
    (hmem : (t, ds) ∈ (genCat e).complexDeps) :
    ds.Sublist (libraries e) ∧
    (ds.map LibEntry.name).Sublist ["incurses", "microrl", "simple_upload"] ∧
    (∀ c₁ c₂ : String, (∀ l ∈ libraries e, mentionsLib c₁ l = mentionsLib c₂ l) →
      usesLibs e c₁ = usesLibs e c₂) ∧
    complexLinkStmt t ds ∈ ninjaStmts e ∧
    (complexLinkStmt t ds).inputsE =
      "$builddir/fw_start.o" :: ("$builddir/" ++ t ++ ".o") :: libObjsOf ds := by
  have hsub := deps_sub hmem
  refine ⟨hsub, ?_, ?_, mem_ninja_of_complex (mem_complexStmts hmem).2, rfl⟩
  · have hm := List.Sublist.map LibEntry.name hsub
    simpa [libraries] using hm
  · intro c₁ c₂ hmm
    exact List.filter_congr (fun l hl => hmm l hl)

/-- Witness for C10: the unit of `eC3` mentions microrl before incurses,
yet its dependency list comes out in table order incurses-first. -/
theorem claim_C10_witness :
    ("shell", [incursesEntry, microrlEntry]) ∈ (genCat eC3).complexDeps ∧
    ([incursesEntry, microrlEntry].map LibEntry.name).Sublist
      ["incurses", "microrl", "simple_upload"] ∧
    strContains "#include \"microrl.h\"\n#include \"incurses.h\"" "microrl.h" = true := by
  have hmem : ("shell", [incursesEntry, microrlEntry]) ∈ (genCat eC3).complexDeps := by
    decide
  exact ⟨hmem, (claim_C10 eC3 hmem).2.1, by decide⟩

/-- A witness environment holding one unit of each firmware class. -/
def eC4 : Env :=
  envW [("firmware/hello.c", "int main() \x7b return 0; \x7d"),
        ("firmware/printy.c", "#include <stdio.h>"),
        ("firmware/tui.c", "#include \"incurses.h\"")]

/-- Counterexample to C4 as stated: the three firmware classes do not
get three pairwise-distinct link recipes — a `MinimalRuntime` unit and a
`LibraryDependent` unit are both linked with the `ld_newlib` rule
(lines 288 and 334 both emit `ld_newlib`). -/
theorem claim_C4_counterexample :
    "printy" ∈ (genCat eC4).newlib ∧
    ("tui", [incursesEntry]) ∈ (genCat eC4).complexDeps ∧
    linkNewlibStmt "printy" ∈ ninjaStmts eC4 ∧
    complexLinkStmt "tui" [incursesEntry] ∈ ninjaStmts eC4 ∧
    (linkNewlibStmt "printy").rule = "ld_newlib" ∧
    (complexLinkStmt "tui" [incursesEntry]).rule = "ld_newlib" := by
  refine ⟨by decide, by decide, by decide, by decide, rfl, rfl⟩

/-- C4 amended: bare-metal units link with `ld_bare`; minimal-runtime
and library-dependent units both link with the single `ld_newlib`
recipe, the library-dependent class being distinguished by its compile
rule and extra link inputs rather than a third link rule; every unit
gets the link rule assigned to its class. -/
theorem claim_C4_amended (e : Env) :
    (∀ t ∈ (genCat e).bare,
      linkBareStmt t ∈ ninjaStmts e ∧ (linkBareStmt t).rule = "ld_bare") ∧
    (∀ t ∈ (genCat e).newlib,
      linkNewlibStmt t ∈ ninjaStmts e ∧ (linkNewlibStmt t).rule = "ld_newlib") ∧
    (∀ t ds, (t, ds) ∈ (genCat e).complexDeps →
      complexLinkStmt t ds ∈ ninjaStmts e ∧
      (complexLinkStmt t ds).rule = "ld_newlib" ∧
      (complexCompileStmt t ds).rule = "cc_newlib_with_flags") := by
  refine ⟨?_, ?_, ?_⟩
  · intro t ht
    refine ⟨mem_ninja_of_bare ?_, rfl⟩
    unfold bareStmts
    exact List.mem_append.mpr (Or.inl (List.mem_flatMap.mpr ⟨t, ht, by simp⟩))
  · intro t ht
    refine ⟨mem_ninja_of_newlib ?_, rfl⟩
    unfold newlibStmts
    exact List.mem_append.mpr (Or.inl (List.mem_flatMap.mpr ⟨t, ht, by simp⟩))
  · intro t ds hmem
    exact ⟨mem_ninja_of_complex (mem_complexStmts hmem).2, rfl, rfl⟩

/-- Witness for the amended C4 at an environment with all three classes
populated. -/
theorem claim_C4_amended_witness :
    linkBareStmt "hello" ∈ ninjaStmts eC4 ∧
    linkNewlibStmt "printy" ∈ ninjaStmts eC4 ∧
    complexLinkStmt "tui" [incursesEntry] ∈ ninjaStmts eC4 := by
  obtain ⟨hb, hn, hc⟩ := claim_C4_amended eC4
  exact ⟨(hb "hello" (by decide)).1, (hn "printy" (by decide)).1,
    (hc "tui" [incursesEntry] (by decide)).1⟩

/-- C5: the generator is a pure function of the snapshot data it reads —
two snapshots agreeing on directory contents (in enumeration order) and
probe results yield byte-identical output text and identical build
statements, whatever their modification times. -/
theorem claim_C5 (s t : Snapshot) (h : s.env = t.env) :
    generate_ninja s.env = generate_ninja t.env ∧
    ninjaStmts s.env = ninjaStmts t.env := by
  rw [h]
  exact ⟨rfl, rfl⟩

/-- A snapshot of the witness environment with one set of mtimes. -/
def snapA : Snapshot := ⟨eC4, [("firmware/hello.c", 100)]⟩

/-- The same snapshot contents with different mtimes. -/
def snapB : Snapshot := ⟨eC4, [("firmware/hello.c", 999)]⟩

/-- Witness for C5: two distinct snapshots with equal contents produce
identical output. -/
theorem claim_C5_witness :
    snapA ≠ snapB ∧ snapA.env = snapB.env ∧
    generate_ninja snapA.env = generate_ninja snapB.env := by
  exact ⟨by decide, rfl, (claim_C5 snapA snapB rfl).1⟩

lemma le_length_foldl (l : List String) (a : String) :
    a.length ≤ (l.foldl (fun r s => r ++ s) a).length := by
  induction l generalizing a with
  | nil => simp
  | cons b l ih =>
    calc a.length ≤ (a ++ b).length := by
          rw [String.length_append]
          omega
      _ ≤ _ := by
          rw [List.foldl_cons]
          exact ih (a ++ b)

lemma gen_ne_empty (e : Env) : generate_ninja e ≠ "" := by
  intro h
  have hsplit : textChunks e = headerText ::
      ([configText e, rulesText, bootText, "# Firmware (bare metal)\n",
        "build $builddir/fw_start.o: as_bare $firmdir/start.S\n\n"] ++
       (genCat e).bare.map bareChunk ++
       [aggChunk "firmware-bare" (genCat e).bare, "# Firmware (with newlib)\n"] ++
       (genCat e).newlib.map newlibChunk ++
       [aggChunk "firmware-newlib" (genCat e).newlib, "# Firmware (with libraries)\n"] ++
       (libStmts e).map libChunkOf ++
       (genCat e).complexFw.map (complexChunk e) ++
       [aggChunk "firmware-complex" (genCat e).complexFw,
        "build firmware-all: phony firmware-bare firmware-newlib firmware-complex\n\n",
        hdlText e, hostText, artifactsText, topText]) := rfl
  have h1 : headerText.length ≤ (generate_ninja e).length := by
    unfold generate_ninja String.join
    rw [hsplit, List.foldl_cons]
    have h2 := le_length_foldl
      ([configText e, rulesText, bootText, "# Firmware (bare metal)\n",
        "build $builddir/fw_start.o: as_bare $firmdir/start.S\n\n"] ++
       (genCat e).bare.map bareChunk ++
       [aggChunk "firmware-bare" (genCat e).bare, "# Firmware (with newlib)\n"] ++
       (genCat e).newlib.map newlibChunk ++
       [aggChunk "firmware-newlib" (genCat e).newlib, "# Firmware (with libraries)\n"] ++
       (libStmts e).map libChunkOf ++
       (genCat e).complexFw.map (complexChunk e) ++
       [aggChunk "firmware-complex" (genCat e).complexFw,
        "build firmware-all: phony firmware-bare firmware-newlib firmware-complex\n\n",
        hdlText e, hostText, artifactsText, topText]) ("" ++ headerText)
    have h3 : ("" ++ headerText).length = headerText.length := by
      rw [String.length_append, String.length_empty]
      omega
    rw [h3] at h2
    exact h2
  rw [h, String.length_empty] at h1
  have h3 : 0 < headerText.length := by decide
  omega

lemma genCat_empty (e : Env) (h : e.firmware = []) :
    genCat e = ⟨[], [], [], []⟩ := by
  unfold genCat categorize_firmware
  rw [h]
  split <;> rfl

lemma mem_ninja_of_aggPair {e : Env} {s : BuildStmt}
    (h : s ∈ ([classAgg "firmware-complex" (genCat e).complexFw, fwAllStmt] :
      List BuildStmt)) : s ∈ ninjaStmts e := by
  unfold ninjaStmts
  simp only [List.mem_append]
  tauto

/-- C8: a snapshot with zero firmware sources still yields a complete
build description whose three per-class firmware aggregates are emitted
as empty phony targets, along with the all-firmware aggregate, rather
than being omitted or failing (lines 279-282, 294-297, 338-343). -/
theorem claim_C8 (e : Env) (h : e.firmware = []) :
    classAgg "firmware-bare" [] ∈ ninjaStmts e ∧
    classAgg "firmware-newlib" [] ∈ ninjaStmts e ∧
    classAgg "firmware-complex" [] ∈ ninjaStmts e ∧
    (classAgg "firmware-bare" []).inputsE = [] ∧
    (classAgg "firmware-bare" []).rule = "phony" ∧
    fwAllStmt ∈ ninjaStmts e ∧
    generate_ninja e ≠ "" := by
  have hc := genCat_empty e h
  refine ⟨?_, ?_, ?_, rfl, rfl, ?_, gen_ne_empty e⟩
  · apply mem_ninja_of_bare
    unfold bareStmts
    rw [hc]
    simp
  · apply mem_ninja_of_newlib
    unfold newlibStmts
    rw [hc]
    simp
  · apply mem_ninja_of_aggPair
    rw [hc]
    simp
  · exact mem_ninja_of_aggPair (by simp)

/-- Witness for C8 at the empty-firmware environment. -/
theorem claim_C8_witness :
    (envW []).firmware = [] ∧
    classAgg "firmware-bare" [] ∈ ninjaStmts (envW []) ∧
    classAgg "firmware-complex" [] ∈ ninjaStmts (envW []) := by
  have h := claim_C8 (envW []) rfl
  exact ⟨rfl, h.1, h.2.2.1⟩

/-- C9: the synthesis statement's input list is exactly the discovered
hdl sources with the `_2cycle` / `.3state` variants removed: an excluded
name is absent, every other discovered name is present (line 348). -/
theorem claim_C9 (e : Env) (f : String) (hf : f ∈ e.hdl) :
    synthStmt e ∈ ninjaStmts e ∧
    ((strContains f "_2cycle" || strContains f ".3state") = true →
      f ∉ (synthStmt e).inputsE) ∧
    ((strContains f "_2cycle" || strContains f ".3state") = false →
      f ∈ (synthStmt e).inputsE) := by
  refine ⟨?_, ?_, ?_⟩
  · unfold ninjaStmts
    simp only [List.mem_append]
    tauto
  · intro hex hmem
    have hp := (List.mem_filter.mp hmem).2
    simp only [Bool.and_eq_true, Bool.not_eq_true'] at hp
    rcases (Bool.or_eq_true _ _).mp hex with h | h
    · rw [hp.1] at h
      exact Bool.noConfusion h
    · rw [hp.2] at h
      exact Bool.noConfusion h
  · intro hnex
    show f ∈ hdlFiltered e
    apply List.mem_filter.mpr
    refine ⟨hf, ?_⟩
    simp only [Bool.and_eq_true, Bool.not_eq_true']
    exact Bool.or_eq_false_iff.mp hnex

/-- An environment whose hdl glob contains excluded backup variants. -/
def eC9 : Env :=
  { envW [] with hdl := ["hdl/top.v", "hdl/top_2cycle.v", "hdl/uart.3state.v", "hdl/uart.v"] }

/-- Witness for C9: the `_2cycle` variant is excluded from the synthesis
inputs while the plain sources are kept. -/
theorem claim_C9_witness :
    "hdl/top_2cycle.v" ∈ eC9.hdl ∧
    "hdl/top_2cycle.v" ∉ (synthStmt eC9).inputsE ∧
    "hdl/uart.3state.v" ∉ (synthStmt eC9).inputsE ∧
    "hdl/top.v" ∈ (synthStmt eC9).inputsE := by
  have h1 := claim_C9 eC9 "hdl/top_2cycle.v" (by decide)
  have h2 := claim_C9 eC9 "hdl/uart.3state.v" (by decide)
  have h3 := claim_C9 eC9 "hdl/top.v" (by decide)
  exact ⟨by decide, h1.2.1 (by decide), h2.2.1 (by decide), h3.2.2 (by decide)⟩

lemma foldl_reads (ops : List Op) (h : ∀ o ∈ ops, ∃ p, o = Op.readSrc p) :
    ops.foldl applyOp OutFile.keep = OutFile.keep := by
  induction ops with
  | nil => rfl
  | cons o rest ih =>
    obtain ⟨p, rfl⟩ := h o (List.mem_cons_self _ _)
    rw [List.foldl_cons]
    exact ih (fun o ho => h o (List.mem_cons_of_mem _ ho))

/-- C6 amended: a fatal error during the classification stage — while
the firmware sources are being read, before `open('build.ninja', 'w')`
at line 143 runs — leaves the previous output file untouched; the
output is truncated as soon as serialization starts, not atomically
replaced at the end. -/
theorem claim_C6_amended (e : Env) (k : Nat)
    (hk : k ≤ (classifyReads e).length) :
    runOps k (genOps e) = OutFile.keep := by
  unfold runOps genOps
  rw [List.append_assoc, List.take_append_of_le_length hk]
  apply foldl_reads
  intro o ho
  have hm : o ∈ classifyReads e := List.mem_of_mem_take ho
  obtain ⟨pc, -, rfl⟩ := List.mem_map.mp hm
  exact ⟨pc.1, rfl⟩

/-- A witness environment with a single readable firmware unit. -/
def eC6r : Env := envW [("firmware/hello.c", "int main()")]

/-- Witness for the amended C6: failing at the very first
classification read leaves the output file in place. -/
theorem claim_C6_amended_witness :
    (0 : Nat) ≤ (classifyReads eC6r).length ∧
    runOps 0 (genOps eC6r) = OutFile.keep :=
  ⟨by decide, claim_C6_amended eC6r 0 (by decide)⟩

/-- The empty-firmware environment used for the C6 counterexample. -/
def eC6 : Env := envW []

/-- Counterexample to C6 as stated: a fatal error during serialization
does leave a partial output file — after the `open` truncation and one
write, aborting leaves the file holding just the header, which is
neither the previous content nor the complete output. The code opens
`build.ninja` with mode `w` (truncating) before writing incrementally,
with no temporary-file-and-rename step. -/
theorem claim_C6_counterexample :
    2 < (genOps eC6).length ∧
    runOps 2 (genOps eC6) = OutFile.replaced headerText ∧
    OutFile.replaced headerText ≠ OutFile.keep ∧
    headerText ≠ generate_ninja eC6 := by
  refine ⟨by decide, by decide, by decide, by decide⟩

/-- C7 amended: the generator performs no graph-integrity check — when
the emitted statements contain an input that no statement produces and
that is not an original source file, generation still succeeds and
emits the complete build description. -/
theorem claim_C7_amended (e : Env) (h : hasDangling e = true) :
    danglingInputs e ≠ [] ∧ generate_ninja e ≠ "" := by
  refine ⟨?_, gen_ne_empty e⟩
  intro hnil
  unfold hasDangling at h
  rw [hnil] at h
  simp at h

/-- The environment producing a dangling input: a firmware file whose
base name contains `.c` internally, so `replace('.c', '')` (line 95)
derives target `myode` from `my.code.c` and the compile statement
references the nonexistent `$firmdir/myode.c`. -/
def eC7 : Env := envW [("firmware/my.code.c", "")]

/-- Counterexample to C7 as stated: the graph emitted for `eC7` contains
a statement whose declared input `$firmdir/myode.c` is neither produced
by any statement nor an original source file, yet generation does not
fail — the statement is emitted and the full text is produced. -/
theorem claim_C7_counterexample :
    hasDangling eC7 = true ∧
    "$firmdir/myode.c" ∈ danglingInputs eC7 ∧
    compileBareStmt "myode" ∈ ninjaStmts eC7 ∧
    (compileBareStmt "myode").inputsE = ["$firmdir/myode.c"] ∧
    producedB eC7 "$firmdir/myode.c" = false ∧
    sourceB eC7 "$firmdir/myode.c" = false ∧
    generate_ninja eC7 ≠ "" := by
  refine ⟨by decide, by decide, by decide, rfl, by decide, by decide, gen_ne_empty eC7⟩

/-- Witness for the amended C7 at the dangling-input environment. -/
theorem claim_C7_amended_witness :
    hasDangling eC7 = true ∧ danglingInputs eC7 ≠ [] ∧ generate_ninja eC7 ≠ "" := by
  have h : hasDangling eC7 = true := by decide
  have ha := claim_C7_amended eC7 h
  exact ⟨h, ha.1, ha.2⟩

end GenNinja
